import Mathlib

/-!
# Verification of the `vscode-nodebook` debug-protocol address-translation layer

A shallow embedding of `src/nodeKernel.ts` (the `NodeKernel` class and the
`visitSources` traversal) from the `microsoft/vscode-nodebook` repository,
together with proofs and refutations of the specified properties.

Modelling conventions:
* TypeScript optional fields become `Option`.
* The mutable `Map<string, vscode.NotebookCell>` becomes an association list
  with JavaScript `Map` semantics (`set` overwrites an existing key in place,
  otherwise appends; `get` finds the unique entry).
* The in-place mutation performed by the callback of `visitSources` becomes explicit
  state passing: a callback `Source → σ → Source × σ` returns the updated
  source and the updated ambient state, and `visitSources` returns the
  rewritten message together with the final state.
* The call `fs.mkdtempSync` on the prefix `vscode-nodebook-` under `os.tmpdir()` returns a fresh
  directory; freshness is modelled by a counter in the kernel state.
* JavaScript object identity of notebook cells (used by
  `document.cells.indexOf(cell)`) is modelled by giving each cell an `id`
  field; structural equality on cells then coincides with identity whenever
  ids are distinct.
* Thrown exceptions that the code catches (`vscode.Uri.parse` in strict mode
  inside the `try`/`catch` of `dumpCell`) become `Option` results.
-/

namespace Nodebook

/-- The DAP `Source` structure: the fields `nodeKernel.ts` reads or writes
(`path`, `name`, `sourceReference`). All are optional in the protocol. -/
structure Source where
  name : Option String
  path : Option String
  sourceReference : Option Int
  deriving DecidableEq, Repr

/-- A DAP stack frame (`DebugProtocol.StackFrame`): an optional `source`
plus the fields the rewriting engine must not touch. -/
structure StackFrame where
  id : Int
  frameName : String
  line : Int
  column : Int
  source : Option Source
  deriving DecidableEq, Repr

/-- A DAP breakpoint (`DebugProtocol.Breakpoint`): an optional `source`
plus untouched payload fields. -/
structure Breakpoint where
  verified : Bool
  line : Option Int
  source : Option Source
  deriving DecidableEq, Repr

/-- A DAP scope (`DebugProtocol.Scope`): an optional `source` plus untouched
payload fields. -/
structure Scope where
  scopeName : String
  expensive : Bool
  source : Option Source
  deriving DecidableEq, Repr

/-- Bodies of the event messages distinguished by the `event`
switch of `visitSources` (`output`, `loadedSource`, `breakpoint`); any other event name falls
into the `default` arm, modelled by `otherEvent`. -/
inductive EventBody where
  | output (category : Option String) (outputText : String) (source : Option Source)
  | loadedSource (reason : String) (source : Option Source)
  | breakpoint (reason : String) (breakpoint : Breakpoint)
  | otherEvent (event : String)
  deriving DecidableEq, Repr

/-- Arguments of the request commands distinguished by the
`request` switch of `visitSources`; `launchVSCode` is a recognized command whose arm is
commented out (a no-op), and any other command falls into `default`. -/
inductive RequestArgs where
  | setBreakpoints (source : Option Source) (lines : List Int)
  | breakpointLocations (source : Option Source) (line : Int)
  | source (source : Option Source) (sourceReference : Int)
  | gotoTargets (source : Option Source) (line : Int)
  | launchVSCode (args : List String)
  | otherRequest (command : String)
  deriving DecidableEq, Repr

/-- Bodies of the response commands distinguished by the
`response` switch of `visitSources`; any other command falls into `default`. -/
inductive ResponseBody where
  | stackTrace (stackFrames : List StackFrame) (totalFrames : Option Int)
  | loadedSources (sources : List Source)
  | scopes (scopes : List Scope)
  | setFunctionBreakpoints (breakpoints : List Breakpoint)
  | setBreakpoints (breakpoints : List Breakpoint)
  | otherResponse (command : String)
  deriving DecidableEq, Repr

/-- A DAP protocol message, discriminated by `type` exactly as the top-level
switch in `visitSources` is: `event`, `request`, or `response`.  A response
carries its `success` flag and an optional body (the code guards on
`response.success && response.body`). -/
inductive ProtocolMessage where
  | event (body : EventBody)
  | request (args : RequestArgs)
  | response (success : Bool) (body : Option ResponseBody)
  deriving DecidableEq, Repr

/-- A notebook cell as `nodeKernel.ts` consumes it: `id` models JavaScript
object identity, `uriString` is `cell.uri.toString()`, `fsPath` is
`cell.uri.fsPath`, and `text` is `cell.document.getText()`. -/
structure NotebookCell where
  id : Nat
  uriString : String
  fsPath : String
  text : String
  deriving DecidableEq, Repr

/-- The notebook document: its cells in order (`document.cells`). -/
structure NotebookDocument where
  cells : List NotebookCell
  deriving DecidableEq, Repr

/-- Model of `Map.get`: the value of the unique entry with the given key, if any. -/
def mapGet (m : List (String × NotebookCell)) (k : String) : Option NotebookCell :=
  (m.find? (fun e => e.1 == k)).map (·.2)

/-- Model of `Map.set`: overwrite the entry with the given key in place if present,
otherwise append a new entry (JavaScript `Map` insertion-order semantics). -/
def mapSet (m : List (String × NotebookCell)) (k : String) (v : NotebookCell) :
    List (String × NotebookCell) :=
  if m.any (fun e => e.1 == k) then
    m.map (fun e => if e.1 == k then (k, v) else e)
  else
    m ++ [(k, v)]

/-- Model of `Array.prototype.indexOf` via structural equality (object identity when
cell ids are distinct): index of the first occurrence, or `none` for `-1`. -/
def indexOfCell : List NotebookCell → NotebookCell → Option Nat
  | [], _ => none
  | x :: rest, c =>
    if x = c then some 0
    else (indexOfCell rest c).map (· + 1)

/-- The result of `vscode.Uri.parse`: the two components `dumpCell` reads. -/
structure ParsedUri where
  scheme : String
  fragment : String
  deriving DecidableEq, Repr

/-- First character of a scheme must match `\w` (`[A-Za-z0-9_]`). -/
def isSchemeStartChar (c : Char) : Bool :=
  c.isAlpha || c.isDigit || c == '_'

/-- Later characters of a scheme must match `[\w\d+.-]`. -/
def isSchemeChar (c : Char) : Bool :=
  c.isAlpha || c.isDigit || c == '_' || c == '+' || c == '.' || c == '-'

/-- Model of `vscode.Uri.parse(s, true)` (strict), reduced to what `dumpCell` needs:
the scheme is the non-empty run of characters not in `:/?#` preceding the
first colon (strict mode throws — here: `none` — when absent), validated
against `/^\w[\w\d+.-]*$/`; the fragment is everything after the first hash.
Percent-decoding of the fragment is not modelled (cell fragments contain no
`%`). -/
def parseUri (s : String) : Option ParsedUri :=
  let chars := s.toList
  let pre := chars.takeWhile (fun c => c != ':' && c != '/' && c != '?' && c != '#')
  match pre with
  | [] => none
  | c0 :: rest =>
    if (chars.drop pre.length).head? = some ':' then
      if isSchemeStartChar c0 && rest.all isSchemeChar then
        let fragment :=
          match chars.dropWhile (· != '#') with
          | [] => ""
          | _ :: f => String.mk f
        some ⟨String.mk pre, fragment⟩
      else none
    else none

/-- Model of `PATH.basename` on a POSIX path without trailing separator: the suffix
after the last slash. -/
def basename (p : String) : String :=
  String.mk ((p.toList.reverse.takeWhile (· != '/')).reverse)

/-- The mutable state of a `NodeKernel` instance: whether `nodeRuntime` is
alive, the lazily created `tmpDirectory`, and the `pathToCell` map.  The
counter feeds the fresh-name generation of `mkdtempSync`. -/
structure KernelState where
  running : Bool
  tmpDirectory : Option String
  tmpCounter : Nat
  pathToCell : List (String × NotebookCell)
  deriving DecidableEq, Repr

/-- A fresh `NodeKernel`: no runtime, no temp directory, empty map. -/
def KernelState.initial : KernelState :=
  { running := false, tmpDirectory := none, tmpCounter := 0, pathToCell := [] }

/-- The fresh directory name returned by `fs.mkdtempSync` on the prefix
`vscode-nodebook-` under the OS temp dir; freshness modelled by the counter
suffix. -/
def mkTmpDirName (n : Nat) : String :=
  "/tmp/vscode-nodebook-" ++ toString n

/-- Model of `NodeKernel.start`: spawn the runtime if not already running. Port
allocation and stream wiring have no observable effect on the modelled
state beyond `running`. -/
def start (k : KernelState) : KernelState :=
  if k.running then k else { k with running := true }

/-- Model of `NodeKernel.stop`: kill the runtime and discard the temp directory
(scheduling its deletion).  Note: `pathToCell` is not cleared. -/
def stop (k : KernelState) : KernelState :=
  { k with running := false, tmpDirectory := none }

/-- Model of `NodeKernel.restart`: first `stop()`, then `start()`. -/
def restart (k : KernelState) : KernelState :=
  start (stop k)

/-- The `if (!this.tmpDirectory) { this.tmpDirectory = fs.mkdtempSync(...) }`
step of `dumpCell`: return the (possibly freshly created) temp directory and
the updated state. -/
def ensureTmpDirectory (k : KernelState) : String × KernelState :=
  match k.tmpDirectory with
  | some t => (t, k)
  | none =>
    let t := mkTmpDirName k.tmpCounter
    (t, { k with tmpDirectory := some t, tmpCounter := k.tmpCounter + 1 })

/-- Model of `NodeKernel.dumpCell(uri)`: parse the uri strictly (a throw is caught and
yields `none`); require the `vscode-notebook-cell` scheme; find the cell of
the tracked document whose uri string equals `uri`; create the temp directory
on first use; derive the cell path from the uri's fragment; record the
path→cell mapping; write the cell text (file contents are not part of the
modelled state).  Returns the cell path, or `none` when the uri does not
denote a cell of the document. -/
def dumpCell (k : KernelState) (doc : NotebookDocument) (uri : String) :
    Option String × KernelState :=
  match parseUri uri with
  | none => (none, k)
  | some cellUri =>
    if cellUri.scheme = "vscode-notebook-cell" then
      match doc.cells.find? (fun c => c.uriString == uri) with
      | some cell =>
        let r := ensureTmpDirectory k
        let cellPath := r.1 ++ "/nodebook_cell_" ++ cellUri.fragment ++ ".js"
        (some cellPath, { r.2 with pathToCell := mapSet r.2.pathToCell cellPath cell })
      | none => (none, k)
    else (none, k)

/-- The local `sourceHook` closure in `visitSources`: apply the visitor only
when the (optional) source is present; thread the ambient state. -/
def sourceHook {σ : Type} (f : Source → σ → Source × σ) :
    Option Source → σ → Option Source × σ
  | none, s => (none, s)
  | some src, s =>
    let r := f src s
    (some r.1, r.2)

/-- Model of `stackFrames.forEach(frame => sourceHook(frame.source))`, with the
callback's in-place mutation made explicit: each frame's source is rewritten
in order, all other frame fields preserved. -/
def hookFrames {σ : Type} (f : Source → σ → Source × σ) :
    List StackFrame → σ → List StackFrame × σ
  | [], s => ([], s)
  | fr :: rest, s =>
    let r1 := sourceHook f fr.source s
    let r2 := hookFrames f rest r1.2
    ({ fr with source := r1.1 } :: r2.1, r2.2)

/-- Model of `sources.forEach(source => sourceHook(source))`: each source of the list
is rewritten in order. -/
def hookSources {σ : Type} (f : Source → σ → Source × σ) :
    List Source → σ → List Source × σ
  | [], s => ([], s)
  | src :: rest, s =>
    let r := f src s
    let r2 := hookSources f rest r.2
    (r.1 :: r2.1, r2.2)

/-- Model of `scopes.forEach(scope => sourceHook(scope.source))`. -/
def hookScopes {σ : Type} (f : Source → σ → Source × σ) :
    List Scope → σ → List Scope × σ
  | [], s => ([], s)
  | sc :: rest, s =>
    let r1 := sourceHook f sc.source s
    let r2 := hookScopes f rest r1.2
    ({ sc with source := r1.1 } :: r2.1, r2.2)

/-- Model of `breakpoints.forEach(bp => sourceHook(bp.source))`. -/
def hookBreakpoints {σ : Type} (f : Source → σ → Source × σ) :
    List Breakpoint → σ → List Breakpoint × σ
  | [], s => ([], s)
  | bp :: rest, s =>
    let r1 := sourceHook f bp.source s
    let r2 := hookBreakpoints f rest r1.2
    ({ bp with source := r1.1 } :: r2.1, r2.2)

/-- The `visitSources` traversal of `nodeKernel.ts`: switch on the message
type, then on the event name / request command / response command, and apply
`sourceHook` at every embedded `Source` location; unknown shapes pass
through.  Responses are only visited when `success` is set and a body is
present.  The callback's mutation of the source and of the ambient kernel
state is returned explicitly. -/
def visitSources {σ : Type} (msg : ProtocolMessage)
    (f : Source → σ → Source × σ) (s : σ) : ProtocolMessage × σ :=
  match msg with
  | .event body =>
    match body with
    | .output cat txt src =>
      let r := sourceHook f src s
      (.event (.output cat txt r.1), r.2)
    | .loadedSource reason src =>
      let r := sourceHook f src s
      (.event (.loadedSource reason r.1), r.2)
    | .breakpoint reason bp =>
      let r := sourceHook f bp.source s
      (.event (.breakpoint reason { bp with source := r.1 }), r.2)
    | .otherEvent e => (.event (.otherEvent e), s)
  | .request args =>
    match args with
    | .setBreakpoints src lines =>
      let r := sourceHook f src s
      (.request (.setBreakpoints r.1 lines), r.2)
    | .breakpointLocations src line =>
      let r := sourceHook f src s
      (.request (.breakpointLocations r.1 line), r.2)
    | .source src ref =>
      let r := sourceHook f src s
      (.request (.source r.1 ref), r.2)
    | .gotoTargets src line =>
      let r := sourceHook f src s
      (.request (.gotoTargets r.1 line), r.2)
    | .launchVSCode args => (.request (.launchVSCode args), s)
    | .otherRequest c => (.request (.otherRequest c), s)
  | .response success body =>
    match success, body with
    | true, some b =>
      match b with
      | .stackTrace frames total =>
        let r := hookFrames f frames s
        (.response true (some (.stackTrace r.1 total)), r.2)
      | .loadedSources srcs =>
        let r := hookSources f srcs s
        (.response true (some (.loadedSources r.1)), r.2)
      | .scopes scs =>
        let r := hookScopes f scs s
        (.response true (some (.scopes r.1)), r.2)
      | .setFunctionBreakpoints bps =>
        let r := hookBreakpoints f bps s
        (.response true (some (.setFunctionBreakpoints r.1)), r.2)
      | .setBreakpoints bps =>
        let r := hookBreakpoints f bps s
        (.response true (some (.setBreakpoints r.1)), r.2)
      | .otherResponse c => (.response true (some (.otherResponse c)), s)
    | success, body => (.response success body, s)

/-- The callback of `onWillReceiveMessage` (VS Code → debug adapter): when
the source has a truthy `path`, try `dumpCell`; on success overwrite `path`
with the returned cell path, otherwise leave the source untouched. -/
def outboundVisitor (doc : NotebookDocument) (src : Source) (k : KernelState) :
    Source × KernelState :=
  match src.path with
  | some p =>
    if p = "" then (src, k)
    else
      let r := dumpCell k doc p
      match r.1 with
      | some cellPath => ({ src with path := some cellPath }, r.2)
      | none => (src, r.2)
  | none => (src, k)

/-- The callback of `onDidSendMessage` (debug adapter → VS Code): when the
source has a truthy `path` registered in `pathToCell`, overwrite `path` with
the cell's uri string, set `name` to the basename of the cell's `fsPath`,
and append `, Cell <index+1>` when the cell is found in the document. -/
def inboundVisitor (doc : NotebookDocument) (src : Source) (k : KernelState) :
    Source × KernelState :=
  match src.path with
  | some p =>
    if p = "" then (src, k)
    else
      match mapGet k.pathToCell p with
      | some cell =>
        let name0 := basename cell.fsPath
        let name1 :=
          match indexOfCell doc.cells cell with
          | some i => name0 ++ ", Cell " ++ toString (i + 1)
          | none => name0
        ({ src with path := some cell.uriString, name := some name1 }, k)
      | none => (src, k)
  | none => (src, k)

/-- The tracker's `onWillReceiveMessage` hook: visit all sources of the
outbound message with `outboundVisitor`. -/
def onWillReceiveMessage (k : KernelState) (doc : NotebookDocument)
    (m : ProtocolMessage) : ProtocolMessage × KernelState :=
  visitSources m (outboundVisitor doc) k

/-- The tracker's `onDidSendMessage` hook: visit all sources of the inbound
message with `inboundVisitor`. -/
def onDidSendMessage (k : KernelState) (doc : NotebookDocument)
    (m : ProtocolMessage) : ProtocolMessage × KernelState :=
  visitSources m (inboundVisitor doc) k

/-- Pure rewriting: run `visitSources` with a stateless callback and keep
only the rewritten message. -/
def mapSources (m : ProtocolMessage) (g : Source → Source) : ProtocolMessage :=
  (visitSources m (fun src (u : Unit) => (g src, u)) ()).1

/-- The sources a message's visitation presents to the callback, in
invocation order: run `visitSources` with a collecting callback. -/
def visitedList (m : ProtocolMessage) : List Source :=
  (visitSources m (fun src l => (src, l ++ [src])) []).2

/-! ## Helper lemmas -/

/-- Overwriting the entry for `k` in place makes a later lookup of `k` find
the new value, provided some entry for `k` exists. -/
theorem mapGet_map_overwrite (m : List (String × NotebookCell)) (k : String)
    (v : NotebookCell) (hany : m.any (fun e => e.1 == k) = true) :
    mapGet (m.map (fun e => if e.1 == k then (k, v) else e)) k = some v := by
  induction m with
  | nil => simp at hany
  | cons e rest ih =>
    rw [List.map_cons]
    by_cases h : (e.1 == k) = true
    · rw [if_pos h]
      unfold mapGet
      rw [List.find?_cons_of_pos _ (by simp)]
      rfl
    · rw [if_neg h]
      have hr : rest.any (fun e => e.1 == k) = true := by
        simpa [List.any_cons, h] using hany
      unfold mapGet
      rw [List.find?_cons_of_neg (p := fun e : String × NotebookCell => e.1 == k) _ h]
      exact ih hr

/-- Appending a new entry for `k` makes a later lookup of `k` find it,
provided no entry for `k` existed. -/
theorem mapGet_append_new (m : List (String × NotebookCell)) (k : String)
    (v : NotebookCell) (hany : m.any (fun e => e.1 == k) = false) :
    mapGet (m ++ [(k, v)]) k = some v := by
  induction m with
  | nil =>
    unfold mapGet
    rw [List.nil_append, List.find?_cons_of_pos _ (by simp)]
    rfl
  | cons e rest ih =>
    rw [List.any_cons, Bool.or_eq_false_iff] at hany
    obtain ⟨h1, h2⟩ := hany
    rw [List.cons_append]
    unfold mapGet
    rw [List.find?_cons_of_neg (p := fun e : String × NotebookCell => e.1 == k) _ (by simp [h1])]
    exact ih h2

/-- After `mapSet m k v`, looking up `k` yields `v`. -/
theorem mapGet_mapSet_self (m : List (String × NotebookCell)) (k : String)
    (v : NotebookCell) : mapGet (mapSet m k v) k = some v := by
  unfold mapSet
  by_cases hany : m.any (fun e => e.1 == k) = true
  · rw [if_pos hany]
    exact mapGet_map_overwrite m k v hany
  · rw [if_neg hany]
    exact mapGet_append_new m k v (Bool.not_eq_true _ ▸ hany)

/-- Parsing the empty string fails (strict mode requires a scheme). -/
theorem parseUri_empty : parseUri "" = none := by decide

/-- A string that parses has at least a scheme, hence is non-empty. -/
theorem parseUri_ne_empty {s : String} {u : ParsedUri}
    (h : parseUri s = some u) : s ≠ "" := by
  intro he
  subst he
  rw [parseUri_empty] at h
  exact Option.noConfusion h

/-- The helper `ensureTmpDirectory` does not alter the path→cell map. -/
theorem ensureTmpDirectory_pathToCell (k : KernelState) :
    (ensureTmpDirectory k).2.pathToCell = k.pathToCell := by
  obtain ⟨run, td, tc, ptc⟩ := k
  cases td <;> rfl

/-- After `ensureTmpDirectory`, the state holds the returned directory. -/
theorem ensureTmpDirectory_tmpDirectory (k : KernelState) :
    (ensureTmpDirectory k).2.tmpDirectory = some (ensureTmpDirectory k).1 := by
  obtain ⟨run, td, tc, ptc⟩ := k
  cases td <;> rfl

/-- When a temp directory already exists it is returned and nothing changes. -/
theorem ensureTmpDirectory_of_some (k : KernelState) (t : String)
    (h : k.tmpDirectory = some t) : ensureTmpDirectory k = (t, k) := by
  unfold ensureTmpDirectory
  rw [h]

/-- Shape of a successful `dumpCell`. -/

theorem dumpCell_success (k : KernelState) (doc : NotebookDocument)
    (uri p : String) (k' : KernelState)
    (h : dumpCell k doc uri = (some p, k')) :
    ∃ cellUri cell,
      parseUri uri = some cellUri ∧
      cellUri.scheme = "vscode-notebook-cell" ∧
      doc.cells.find? (fun c => c.uriString == uri) = some cell ∧
      p = (ensureTmpDirectory k).1 ++ "/nodebook_cell_" ++ cellUri.fragment ++ ".js" ∧
      k'.tmpDirectory = some (ensureTmpDirectory k).1 ∧
      k'.pathToCell = mapSet k.pathToCell p cell := by
  unfold dumpCell at h
  cases hp : parseUri uri with
  | none =>
    rw [hp] at h
    exact absurd (congrArg Prod.fst h) (by simp)
  | some cellUri =>
    rw [hp] at h
    dsimp only at h
    by_cases hs : cellUri.scheme = "vscode-notebook-cell"
    · rw [if_pos hs] at h
      cases hf : doc.cells.find? (fun c => c.uriString == uri) with
      | none =>
        rw [hf] at h
        exact absurd (congrArg Prod.fst h) (by simp)
      | some cell =>
        rw [hf] at h
        dsimp only at h
        simp only [Prod.mk.injEq, Option.some.injEq] at h
        obtain ⟨rfl, rfl⟩ := h
        refine ⟨cellUri, cell, rfl, hs, rfl, rfl, ?_, ?_⟩
        · exact ensureTmpDirectory_tmpDirectory k
        · rw [ensureTmpDirectory_pathToCell]
    · rw [if_neg hs] at h
      exact absurd (congrArg Prod.fst h) (by simp)

/-- A failing `dumpCell` leaves the kernel state unchanged. -/
theorem dumpCell_fail (k : KernelState) (doc : NotebookDocument) (uri : String)
    (h : (dumpCell k doc uri).1 = none) : dumpCell k doc uri = (none, k) := by
  unfold dumpCell at h ⊢
  cases hp : parseUri uri with
  | none => rfl
  | some cellUri =>
    rw [hp] at h
    dsimp only at h ⊢
    by_cases hs : cellUri.scheme = "vscode-notebook-cell"
    · rw [if_pos hs] at h ⊢
      cases hf : doc.cells.find? (fun c => c.uriString == uri) with
      | none => rfl
      | some cell =>
        rw [hf] at h
        simp at h
    · rw [if_neg hs]

/-- When the uri parses to the notebook-cell scheme, matches a cell, and the
temp directory `t` already exists, `dumpCell` returns the deterministic
per-cell path under `t`. -/
theorem dumpCell_of_ready (k : KernelState) (doc : NotebookDocument)
    (uri : String) (cu : ParsedUri) (cell : NotebookCell) (t : String)
    (hp : parseUri uri = some cu) (hs : cu.scheme = "vscode-notebook-cell")
    (hf : doc.cells.find? (fun c => c.uriString == uri) = some cell)
    (ht : k.tmpDirectory = some t) :
    (dumpCell k doc uri).1 = some (t ++ "/nodebook_cell_" ++ cu.fragment ++ ".js") := by
  unfold dumpCell
  rw [hp]
  dsimp only
  rw [if_pos hs, hf]
  dsimp only
  rw [ensureTmpDirectory_of_some k t ht]

/-! ## Concrete fixtures for witnesses and counterexamples -/

/-- A first sample cell of the sample document. -/
def cellA : NotebookCell :=
  ⟨0, "vscode-notebook-cell:/nb/sample.nodebook#ch0001", "/nb/sample.nodebook", "let x = 1"⟩

/-- A second sample cell of the sample document. -/
def cellB : NotebookCell :=
  ⟨1, "vscode-notebook-cell:/nb/sample.nodebook#ch0002", "/nb/sample.nodebook", "x + 1"⟩

/-- A sample document holding both sample cells. -/
def docAB : NotebookDocument := ⟨[cellA, cellB]⟩

/-- The temporary path `dumpCell` mints for `cellA` from a fresh kernel. -/
def pathA : String := "/tmp/vscode-nodebook-0/nodebook_cell_ch0001.js"

/-- The kernel state after a fresh kernel dumped `cellA`. -/
def kernelA : KernelState :=
  { running := false, tmpDirectory := some "/tmp/vscode-nodebook-0",
    tmpCounter := 1, pathToCell := [(pathA, cellA)] }

/-! ## Claim theorems -/

/-- C1 (confirmed). Round-trip of the mapping table: whenever `dumpCell` on a uri
resolves outbound to a temporary path (recording it), the inbound lookup
`pathToCell.get` of that path in the resulting state yields exactly the cell
of the tracked document that the uri denotes: if A maps to B, looking up B
yields A. -/
theorem dumpCell_lookup_roundTrip (k : KernelState) (doc : NotebookDocument)
    (uri p : String) (k' : KernelState)
    (h : dumpCell k doc uri = (some p, k')) :
    ∃ cell, doc.cells.find? (fun c => c.uriString == uri) = some cell ∧
      mapGet k'.pathToCell p = some cell := by
  obtain ⟨cu, cell, hp, hs, hf, hpath, htd, hptc⟩ := dumpCell_success k doc uri p k' h
  refine ⟨cell, hf, ?_⟩
  rw [hptc]
  exact mapGet_mapSet_self _ _ _

/-- Witness for C1: dumping the uri of `cellA` from a fresh kernel over the sample
document yields `pathA`, and looking `pathA` up yields `cellA` again. -/
theorem dumpCell_lookup_roundTrip_witness :
    ∃ cell, docAB.cells.find? (fun c => c.uriString == cellA.uriString) = some cell ∧
      mapGet kernelA.pathToCell pathA = some cell :=
  dumpCell_lookup_roundTrip KernelState.initial docAB cellA.uriString pathA kernelA rfl

/-- C6 (confirmed). Idempotence of outbound resolution: a second `dumpCell` of the
same uri, run in the state the first call produced (same session, no content
change), returns the same result — in particular the identical temporary
path string. -/
theorem dumpCell_idempotent (k : KernelState) (doc : NotebookDocument)
    (uri : String) :
    (dumpCell (dumpCell k doc uri).2 doc uri).1 = (dumpCell k doc uri).1 := by
  cases hr : (dumpCell k doc uri).1 with
  | none =>
    have hfull := dumpCell_fail k doc uri hr
    rw [hfull]
    exact hr
  | some p =>
    have h : dumpCell k doc uri = (some p, (dumpCell k doc uri).2) := by
      rw [← hr]
    obtain ⟨cu, cell, hp, hs, hf, hpath, htd, hptc⟩ :=
      dumpCell_success k doc uri p _ h
    rw [hpath]
    exact dumpCell_of_ready _ doc uri cu cell _ hp hs hf htd

/-- C9 (confirmed). Deterministic per-cell artifact naming: a successful `dumpCell`
returns a path ending in `nodebook_cell_<fragment>.js` for the uri's
fragment, and an outbound `setBreakpoints` request whose source path is that
uri is rewritten to exactly that deterministic path. -/
theorem dumpCell_deterministic_name (k : KernelState) (doc : NotebookDocument)
    (uri p : String) (k' : KernelState)
    (h : dumpCell k doc uri = (some p, k')) :
    (∃ cu d, parseUri uri = some cu ∧
      p = d ++ "/nodebook_cell_" ++ cu.fragment ++ ".js") ∧
    (∀ src lines, src.path = some uri →
      onWillReceiveMessage k doc (.request (.setBreakpoints (some src) lines)) =
        (.request (.setBreakpoints (some { src with path := some p }) lines), k')) := by
  obtain ⟨cu, cell, hp, hs, hf, hpath, htd, hptc⟩ := dumpCell_success k doc uri p k' h
  refine ⟨⟨cu, (ensureTmpDirectory k).1, hp, hpath⟩, ?_⟩
  intro src lines hsrc
  have h2 : outboundVisitor doc src k = ({ src with path := some p }, k') := by
    unfold outboundVisitor
    rw [hsrc]
    dsimp only
    rw [if_neg (parseUri_ne_empty hp), h]
  show (ProtocolMessage.request
      (.setBreakpoints (some (outboundVisitor doc src k).1) lines),
      (outboundVisitor doc src k).2) = _
  rw [h2]

/-- Witness for C9: dumping the uri of `cellA` mints `pathA`, whose suffix is the
per-cell token for fragment `ch0001`, and a concrete `setBreakpoints`
request is rewritten to it. -/
theorem dumpCell_deterministic_name_witness :
    (∃ cu d, parseUri cellA.uriString = some cu ∧
      pathA = d ++ "/nodebook_cell_" ++ cu.fragment ++ ".js") ∧
    (∀ src lines, src.path = some cellA.uriString →
      onWillReceiveMessage KernelState.initial docAB
          (.request (.setBreakpoints (some src) lines)) =
        (.request (.setBreakpoints (some { src with path := some pathA }) lines),
          kernelA)) :=
  dumpCell_deterministic_name KernelState.initial docAB cellA.uriString pathA kernelA rfl

/-- A source carrying a stale numeric reference, as a debug adapter might
send when referring to the dumped cell file. -/
def srcRef : Source := ⟨some "orig", some pathA, some 42⟩

/-- A sample document that no longer contains `cellA`. -/
def docB : NotebookDocument := ⟨[cellB]⟩

/-- C2 counterexample: in the kernel state holding the mapping
`pathA ↦ cellA`, a restart does NOT invalidate the mapping — the inbound
lookup of the previously valid path still succeeds, and the inbound hook
still rewrites the stale path into a cell reference, contradicting the
claim that such lookups fail after restart. -/
theorem restart_keeps_stale_mapping_cex :
    mapGet (restart kernelA).pathToCell pathA = some cellA ∧
    mapGet (restart kernelA).pathToCell pathA ≠ none ∧
    ((inboundVisitor docAB srcRef (restart kernelA)).1).path = some cellA.uriString := by
  refine ⟨rfl, ?_, rfl⟩
  decide

/-- C2 amended: `stop`/`restart` kill the runtime and discard the
temporary directory, but leave the `pathToCell` registry intact, so a
previously valid temporary path still resolves to its cell afterwards; only
the temp directory and runtime are reset. -/
theorem restart_resets_only_runtime_and_tmpdir (k : KernelState) :
    (stop k).pathToCell = k.pathToCell ∧
    (restart k).pathToCell = k.pathToCell ∧
    (stop k).tmpDirectory = none ∧
    (restart k).tmpDirectory = none ∧
    (stop k).running = false := by
  exact ⟨rfl, rfl, rfl, rfl, rfl⟩

/-- C3 counterexample: for a registered path whose cell is live in the
document, the inbound hook rewrites `path` and `name` but leaves the numeric
`sourceReference` exactly as it was (`42` here) — it is neither cleared to
`none` nor reset to `0`, contradicting the claim. -/
theorem inbound_keeps_sourceReference_cex :
    ((inboundVisitor docAB srcRef kernelA).1).path = some cellA.uriString ∧
    ((inboundVisitor docAB srcRef kernelA).1).name = some "sample.nodebook, Cell 1" ∧
    ((inboundVisitor docAB srcRef kernelA).1).sourceReference = some 42 ∧
    ((inboundVisitor docAB srcRef kernelA).1).sourceReference ≠ none ∧
    ((inboundVisitor docAB srcRef kernelA).1).sourceReference ≠ some 0 := by
  refine ⟨rfl, rfl, rfl, ?_, ?_⟩ <;> decide

/-- C3 amended. Inbound rewrite postcondition: for an inbound source whose
truthy path is registered and maps to a cell present in the document at index
`i`, the hook overwrites `path` with the cell's document uri string and sets
`name` to the document basename followed by `, Cell <i+1>` (1-based); the
`sourceReference` field is left unchanged (the record update keeps
`src.sourceReference`), not reset. -/
theorem inbound_rewrite_postcondition (k : KernelState) (doc : NotebookDocument)
    (src : Source) (p : String) (cell : NotebookCell) (i : Nat)
    (hp : src.path = some p) (hne : p ≠ "")
    (hm : mapGet k.pathToCell p = some cell)
    (hi : indexOfCell doc.cells cell = some i) :
    inboundVisitor doc src k =
      ({ src with
          path := some cell.uriString,
          name := some (basename cell.fsPath ++ ", Cell " ++ toString (i + 1)) }, k) := by
  unfold inboundVisitor
  rw [hp]
  dsimp only
  rw [if_neg hne, hm]
  dsimp only
  rw [hi]

/-- Witness for the amended C3: rewriting `srcRef` over the sample document
produces the cell uri, the suffixed name for cell index 0, and (per the
record update) an untouched `sourceReference`. -/
theorem inbound_rewrite_postcondition_witness :
    inboundVisitor docAB srcRef kernelA =
      ({ srcRef with
          path := some cellA.uriString,
          name := some (basename cellA.fsPath ++ ", Cell " ++ toString (0 + 1)) }, kernelA) :=
  inbound_rewrite_postcondition kernelA docAB srcRef pathA cellA 0 rfl (by decide) rfl rfl

/-- C4 counterexample: with `pathA` still registered for `cellA` but
`cellA` removed from the document (`docB`), the inbound hook does NOT leave
the source unmodified: it substitutes `path` and `name` (without the cell
suffix), contradicting the claimed all-or-nothing behavior. -/
theorem stale_cell_partial_rewrite_cex :
    ((inboundVisitor docB srcRef kernelA).1).path = some cellA.uriString ∧
    ((inboundVisitor docB srcRef kernelA).1).name = some "sample.nodebook" ∧
    (inboundVisitor docB srcRef kernelA).1 ≠ srcRef := by
  refine ⟨rfl, rfl, ?_⟩
  decide

/-- C4 amended: when the inbound lookup succeeds but the cell is no
longer in the document (`indexOfCell` misses), the hook still substitutes
`path` with the cell's uri and `name` with the bare basename — only the
`, Cell <n>` suffix is omitted; the rewrite is partial, not all-or-nothing. -/
theorem stale_cell_rewrite (k : KernelState) (doc : NotebookDocument)
    (src : Source) (p : String) (cell : NotebookCell)
    (hp : src.path = some p) (hne : p ≠ "")
    (hm : mapGet k.pathToCell p = some cell)
    (hi : indexOfCell doc.cells cell = none) :
    inboundVisitor doc src k =
      ({ src with
          path := some cell.uriString,
          name := some (basename cell.fsPath) }, k) := by
  unfold inboundVisitor
  rw [hp]
  dsimp only
  rw [if_neg hne, hm]
  dsimp only
  rw [hi]

/-- Witness for the amended C4: with `cellA` absent from `docB`, the hook
rewrites `srcRef` to the cell uri and bare basename. -/
theorem stale_cell_rewrite_witness :
    inboundVisitor docB srcRef kernelA =
      ({ srcRef with
          path := some cellA.uriString,
          name := some (basename cellA.fsPath) }, kernelA) :=
  stale_cell_rewrite kernelA docB srcRef pathA cellA rfl (by decide) rfl rfl

/-- When the path is unparseable, carries a non-cell scheme, or matches no
cell of the document, `dumpCell` fails without touching the state. -/
theorem dumpCell_unresolvable (k : KernelState) (doc : NotebookDocument)
    (p : String)
    (h : (∀ cu, parseUri p = some cu → cu.scheme ≠ "vscode-notebook-cell") ∨
      doc.cells.find? (fun c => c.uriString == p) = none) :
    dumpCell k doc p = (none, k) := by
  unfold dumpCell
  cases hp : parseUri p with
  | none => rfl
  | some cu =>
    dsimp only
    by_cases hs : cu.scheme = "vscode-notebook-cell"
    · rw [if_pos hs]
      rcases h with h | h
      · exact absurd hs (h cu hp)
      · rw [h]
    · rw [if_neg hs]

/-- C5 (confirmed). Fail-open on unresolvable references: an outbound source whose
path does not denote a cell of the document (unparseable, wrong scheme, or
no matching cell) passes through `outboundVisitor` entirely unmodified with
the state untouched; symmetrically an inbound source whose path is not
registered passes through `inboundVisitor` unmodified.  (Totality of these
functions models the code's catch-all: no exception escapes the hooks.) -/
theorem failOpen_passthrough (k : KernelState) (doc : NotebookDocument)
    (src : Source) :
    ((∀ p, src.path = some p →
        (∀ cu, parseUri p = some cu → cu.scheme ≠ "vscode-notebook-cell") ∨
        doc.cells.find? (fun c => c.uriString == p) = none) →
      outboundVisitor doc src k = (src, k)) ∧
    ((∀ p, src.path = some p → mapGet k.pathToCell p = none) →
      inboundVisitor doc src k = (src, k)) := by
  constructor
  · intro hout
    unfold outboundVisitor
    cases hsp : src.path with
    | none => rfl
    | some p =>
      dsimp only
      by_cases hpe : p = ""
      · rw [if_pos hpe]
      · rw [if_neg hpe, dumpCell_unresolvable k doc p (hout p hsp)]
  · intro hin
    unfold inboundVisitor
    cases hsp : src.path with
    | none => rfl
    | some p =>
      dsimp only
      by_cases hpe : p = ""
      · rw [if_pos hpe]
      · rw [if_neg hpe, hin p hsp]

/-- A node-internal library source unrelated to any notebook cell. -/
def srcLib : Source := ⟨some "loader.js", some "/usr/lib/node_modules/loader.js", none⟩

/-- Witness for C5: the library source passes through both adapters
unmodified over the sample document and a fresh kernel. -/
theorem failOpen_passthrough_witness :
    outboundVisitor docAB srcLib KernelState.initial = (srcLib, KernelState.initial) ∧
    inboundVisitor docAB srcLib KernelState.initial = (srcLib, KernelState.initial) :=
  ⟨(failOpen_passthrough KernelState.initial docAB srcLib).1
      (fun p hp => by
        rw [show srcLib.path = some "/usr/lib/node_modules/loader.js" from rfl] at hp
        injection hp with hp
        subst hp
        exact Or.inr (by decide)),
    (failOpen_passthrough KernelState.initial docAB srcLib).2
      (fun p hp => by
        rw [show srcLib.path = some "/usr/lib/node_modules/loader.js" from rfl] at hp
        injection hp with hp
        subst hp
        decide)⟩

/-- C7 (confirmed). Response gating: a response message that is not marked successful,
or that carries no body, is returned untouched with the ambient state
unchanged by `visitSources` — for EVERY callback and state, so the source
callback is invoked zero times, regardless of command. -/
theorem response_gating (success : Bool) (body : Option ResponseBody)
    (h : success = false ∨ body = none) :
    ∀ {σ : Type} (f : Source → σ → Source × σ) (s : σ),
      visitSources (.response success body) f s = (.response success body, s) := by
  intro σ f s
  rcases h with h | h
  · subst h
    cases body <;> rfl
  · subst h
    cases success <;> rfl

/-- Witness for C7: an unsuccessful `stackTrace` response with a body passes
through a counting callback without incrementing the counter. -/
theorem response_gating_witness :
    visitSources (.response false (some (.stackTrace [] none)))
        (fun src (n : Nat) => (src, n + 1)) 0 =
      (.response false (some (.stackTrace [] none)), 0) :=
  response_gating false (some (.stackTrace [] none)) (Or.inl rfl) _ 0

/-- Collecting the visited sources of a frame list appends, in frame order,
exactly the sources that are present. -/
theorem hookFrames_collect (frames : List StackFrame) (l : List Source) :
    (hookFrames (fun src acc => (src, acc ++ [src])) frames l).2 =
      l ++ frames.filterMap (fun fr => fr.source) := by
  induction frames generalizing l with
  | nil => simp [hookFrames]
  | cons fr rest ih =>
    cases hs : fr.source with
    | none => simp [hookFrames, sourceHook, hs, ih]
    | some src => simp [hookFrames, sourceHook, hs, ih]

/-- When every frame carries a source, the collected sources are as many as
the frames. -/
theorem length_filterMap_source (frames : List StackFrame)
    (h : ∀ fr ∈ frames, (fr.source).isSome = true) :
    (frames.filterMap (fun fr => fr.source)).length = frames.length := by
  induction frames with
  | nil => rfl
  | cons fr rest ih =>
    have h1 := h fr (List.mem_cons_self _ _)
    cases hs : fr.source with
    | none => rw [hs] at h1; simp at h1
    | some src =>
      simp only [List.filterMap_cons, hs, List.length_cons]
      rw [ih (fun x hx => h x (List.mem_cons_of_mem _ hx))]

/-- C8 (confirmed). Visitation count and order for stack traces: on a successful
`stackTrace` response whose N frames each carry a source, `visitSources`
presents the callback exactly the N frame sources, in frame order. -/
theorem stackTrace_visitation (frames : List StackFrame) (total : Option Int)
    (h : ∀ fr ∈ frames, (fr.source).isSome = true) :
    visitedList (.response true (some (.stackTrace frames total))) =
      frames.filterMap (fun fr => fr.source) ∧
    (visitedList (.response true (some (.stackTrace frames total)))).length =
      frames.length := by
  have hv : visitedList (.response true (some (.stackTrace frames total))) =
      frames.filterMap (fun fr => fr.source) := by
    show (hookFrames (fun src l => (src, l ++ [src])) frames []).2 = _
    rw [hookFrames_collect frames []]
    exact List.nil_append _
  exact ⟨hv, by rw [hv]; exact length_filterMap_source frames h⟩

/-- A first sample stack frame, with a source. -/
def frameOne : StackFrame := ⟨1, "f", 10, 1, some ⟨none, some "p1", none⟩⟩

/-- A second sample stack frame, with a source. -/
def frameTwo : StackFrame := ⟨2, "g", 20, 1, some ⟨none, some "p2", none⟩⟩

/-- Witness for C8: a two-frame stack trace yields exactly its two sources,
in order. -/
theorem stackTrace_visitation_witness :
    visitedList (.response true (some (.stackTrace [frameOne, frameTwo] none))) =
      [frameOne, frameTwo].filterMap (fun fr => fr.source) ∧
    (visitedList
        (.response true (some (.stackTrace [frameOne, frameTwo] none)))).length = 2 :=
  ⟨(stackTrace_visitation [frameOne, frameTwo] none (by decide)).1,
    ((stackTrace_visitation [frameOne, frameTwo] none (by decide)).2).trans rfl⟩

/-- Forget a source's `path` (used to state the outbound frame condition:
two sources agree on everything but `path` iff their `clearPath` images are
equal). -/
def clearPath (src : Source) : Source := { src with path := none }

/-- Applying `sourceHook` after a path-only visitor agrees, up to `clearPath`, with
`sourceHook` on the original optional source. -/
theorem sourceHook_clearPath {σ : Type} (f : Source → σ → Source × σ)
    (hf : ∀ src st, clearPath ((f src st).1) = clearPath src)
    (os : Option Source) (st : σ) :
    (sourceHook (fun src (u : Unit) => (clearPath src, u))
        ((sourceHook f os st).1) ()).1 =
      (sourceHook (fun src (u : Unit) => (clearPath src, u)) os ()).1 := by
  cases os with
  | none => rfl
  | some src =>
    show some (clearPath ((f src st).1)) = some (clearPath src)
    rw [hf]

/-- Frame lists after a path-only visitor agree up to `clearPath`. -/
theorem hookFrames_clearPath {σ : Type} (f : Source → σ → Source × σ)
    (hf : ∀ src st, clearPath ((f src st).1) = clearPath src) :
    ∀ (frames : List StackFrame) (st : σ),
      (hookFrames (fun src (u : Unit) => (clearPath src, u))
          ((hookFrames f frames st).1) ()).1 =
        (hookFrames (fun src (u : Unit) => (clearPath src, u)) frames ()).1 := by
  intro frames
  induction frames with
  | nil => intro st; rfl
  | cons fr rest ih =>
    intro st
    show ({ fr with source := (sourceHook (fun src (u : Unit) => (clearPath src, u))
          ((sourceHook f fr.source st).1) ()).1 } ::
        (hookFrames (fun src (u : Unit) => (clearPath src, u))
          ((hookFrames f rest ((sourceHook f fr.source st).2)).1) ()).1) =
      ({ fr with source := (sourceHook (fun src (u : Unit) => (clearPath src, u))
          fr.source ()).1 } ::
        (hookFrames (fun src (u : Unit) => (clearPath src, u)) rest ()).1)
    rw [sourceHook_clearPath f hf fr.source st, ih ((sourceHook f fr.source st).2)]

/-- Plain source lists after a path-only visitor agree up to `clearPath`. -/
theorem hookSources_clearPath {σ : Type} (f : Source → σ → Source × σ)
    (hf : ∀ src st, clearPath ((f src st).1) = clearPath src) :
    ∀ (srcs : List Source) (st : σ),
      (hookSources (fun src (u : Unit) => (clearPath src, u))
          ((hookSources f srcs st).1) ()).1 =
        (hookSources (fun src (u : Unit) => (clearPath src, u)) srcs ()).1 := by
  intro srcs
  induction srcs with
  | nil => intro st; rfl
  | cons src rest ih =>
    intro st
    show (clearPath ((f src st).1) ::
        (hookSources (fun src (u : Unit) => (clearPath src, u))
          ((hookSources f rest ((f src st).2)).1) ()).1) =
      (clearPath src ::
        (hookSources (fun src (u : Unit) => (clearPath src, u)) rest ()).1)
    rw [hf src st, ih ((f src st).2)]

/-- Scope lists after a path-only visitor agree up to `clearPath`. -/
theorem hookScopes_clearPath {σ : Type} (f : Source → σ → Source × σ)
    (hf : ∀ src st, clearPath ((f src st).1) = clearPath src) :
    ∀ (scs : List Scope) (st : σ),
      (hookScopes (fun src (u : Unit) => (clearPath src, u))
          ((hookScopes f scs st).1) ()).1 =
        (hookScopes (fun src (u : Unit) => (clearPath src, u)) scs ()).1 := by
  intro scs
  induction scs with
  | nil => intro st; rfl
  | cons sc rest ih =>
    intro st
    show ({ sc with source := (sourceHook (fun src (u : Unit) => (clearPath src, u))
          ((sourceHook f sc.source st).1) ()).1 } ::
        (hookScopes (fun src (u : Unit) => (clearPath src, u))
          ((hookScopes f rest ((sourceHook f sc.source st).2)).1) ()).1) =
      ({ sc with source := (sourceHook (fun src (u : Unit) => (clearPath src, u))
          sc.source ()).1 } ::
        (hookScopes (fun src (u : Unit) => (clearPath src, u)) rest ()).1)
    rw [sourceHook_clearPath f hf sc.source st, ih ((sourceHook f sc.source st).2)]

/-- Breakpoint lists after a path-only visitor agree up to `clearPath`. -/
theorem hookBreakpoints_clearPath {σ : Type} (f : Source → σ → Source × σ)
    (hf : ∀ src st, clearPath ((f src st).1) = clearPath src) :
    ∀ (bps : List Breakpoint) (st : σ),
      (hookBreakpoints (fun src (u : Unit) => (clearPath src, u))
          ((hookBreakpoints f bps st).1) ()).1 =
        (hookBreakpoints (fun src (u : Unit) => (clearPath src, u)) bps ()).1 := by
  intro bps
  induction bps with
  | nil => intro st; rfl
  | cons bp rest ih =>
    intro st
    show ({ bp with source := (sourceHook (fun src (u : Unit) => (clearPath src, u))
          ((sourceHook f bp.source st).1) ()).1 } ::
        (hookBreakpoints (fun src (u : Unit) => (clearPath src, u))
          ((hookBreakpoints f rest ((sourceHook f bp.source st).2)).1) ()).1) =
      ({ bp with source := (sourceHook (fun src (u : Unit) => (clearPath src, u))
          bp.source ()).1 } ::
        (hookBreakpoints (fun src (u : Unit) => (clearPath src, u)) rest ()).1)
    rw [sourceHook_clearPath f hf bp.source st, ih ((sourceHook f bp.source st).2)]

/-- Visiting a message with any visitor that changes at most the `path` of a
source gives a message that, after erasing the `path` at every visited
location, equals the original message with its visited paths erased: nothing
but the visited paths is changed. -/
theorem visitSources_clearPath {σ : Type} (f : Source → σ → Source × σ)
    (hf : ∀ src st, clearPath ((f src st).1) = clearPath src)
    (m : ProtocolMessage) (st : σ) :
    mapSources ((visitSources m f st).1) clearPath = mapSources m clearPath := by
  unfold mapSources
  cases m with
  | event body =>
    cases body with
    | output cat txt src =>
      show ProtocolMessage.event (.output cat txt
          (sourceHook (fun src (u : Unit) => (clearPath src, u))
            ((sourceHook f src st).1) ()).1) =
        ProtocolMessage.event (.output cat txt
          (sourceHook (fun src (u : Unit) => (clearPath src, u)) src ()).1)
      rw [sourceHook_clearPath f hf src st]
    | loadedSource reason src =>
      show ProtocolMessage.event (.loadedSource reason
          (sourceHook (fun src (u : Unit) => (clearPath src, u))
            ((sourceHook f src st).1) ()).1) =
        ProtocolMessage.event (.loadedSource reason
          (sourceHook (fun src (u : Unit) => (clearPath src, u)) src ()).1)
      rw [sourceHook_clearPath f hf src st]
    | breakpoint reason bp =>
      show ProtocolMessage.event (.breakpoint reason { bp with
          source := (sourceHook (fun src (u : Unit) => (clearPath src, u))
            ((sourceHook f bp.source st).1) ()).1 }) =
        ProtocolMessage.event (.breakpoint reason { bp with
          source := (sourceHook (fun src (u : Unit) => (clearPath src, u))
            bp.source ()).1 })
      rw [sourceHook_clearPath f hf bp.source st]
    | otherEvent e => rfl
  | request args =>
    cases args with
    | setBreakpoints src lines =>
      show ProtocolMessage.request (.setBreakpoints
          (sourceHook (fun src (u : Unit) => (clearPath src, u))
            ((sourceHook f src st).1) ()).1 lines) =
        ProtocolMessage.request (.setBreakpoints
          (sourceHook (fun src (u : Unit) => (clearPath src, u)) src ()).1 lines)
      rw [sourceHook_clearPath f hf src st]
    | breakpointLocations src line =>
      show ProtocolMessage.request (.breakpointLocations
          (sourceHook (fun src (u : Unit) => (clearPath src, u))
            ((sourceHook f src st).1) ()).1 line) =
        ProtocolMessage.request (.breakpointLocations
          (sourceHook (fun src (u : Unit) => (clearPath src, u)) src ()).1 line)
      rw [sourceHook_clearPath f hf src st]
    | source src ref =>
      show ProtocolMessage.request (.source
          (sourceHook (fun src (u : Unit) => (clearPath src, u))
            ((sourceHook f src st).1) ()).1 ref) =
        ProtocolMessage.request (.source
          (sourceHook (fun src (u : Unit) => (clearPath src, u)) src ()).1 ref)
      rw [sourceHook_clearPath f hf src st]
    | gotoTargets src line =>
      show ProtocolMessage.request (.gotoTargets
          (sourceHook (fun src (u : Unit) => (clearPath src, u))
            ((sourceHook f src st).1) ()).1 line) =
        ProtocolMessage.request (.gotoTargets
          (sourceHook (fun src (u : Unit) => (clearPath src, u)) src ()).1 line)
      rw [sourceHook_clearPath f hf src st]
    | launchVSCode args => rfl
    | otherRequest c => rfl
  | response success body =>
    cases success with
    | false => cases body <;> rfl
    | true =>
      cases body with
      | none => rfl
      | some b =>
        cases b with
        | stackTrace frames total =>
          show ProtocolMessage.response true (some (.stackTrace
              (hookFrames (fun src (u : Unit) => (clearPath src, u))
                ((hookFrames f frames st).1) ()).1 total)) =
            ProtocolMessage.response true (some (.stackTrace
              (hookFrames (fun src (u : Unit) => (clearPath src, u)) frames ()).1 total))
          rw [hookFrames_clearPath f hf frames st]
        | loadedSources srcs =>
          show ProtocolMessage.response true (some (.loadedSources
              (hookSources (fun src (u : Unit) => (clearPath src, u))
                ((hookSources f srcs st).1) ()).1)) =
            ProtocolMessage.response true (some (.loadedSources
              (hookSources (fun src (u : Unit) => (clearPath src, u)) srcs ()).1))
          rw [hookSources_clearPath f hf srcs st]
        | scopes scs =>
          show ProtocolMessage.response true (some (.scopes
              (hookScopes (fun src (u : Unit) => (clearPath src, u))
                ((hookScopes f scs st).1) ()).1)) =
            ProtocolMessage.response true (some (.scopes
              (hookScopes (fun src (u : Unit) => (clearPath src, u)) scs ()).1))
          rw [hookScopes_clearPath f hf scs st]
        | setFunctionBreakpoints bps =>
          show ProtocolMessage.response true (some (.setFunctionBreakpoints
              (hookBreakpoints (fun src (u : Unit) => (clearPath src, u))
                ((hookBreakpoints f bps st).1) ()).1)) =
            ProtocolMessage.response true (some (.setFunctionBreakpoints
              (hookBreakpoints (fun src (u : Unit) => (clearPath src, u)) bps ()).1))
          rw [hookBreakpoints_clearPath f hf bps st]
        | setBreakpoints bps =>
          show ProtocolMessage.response true (some (.setBreakpoints
              (hookBreakpoints (fun src (u : Unit) => (clearPath src, u))
                ((hookBreakpoints f bps st).1) ()).1)) =
            ProtocolMessage.response true (some (.setBreakpoints
              (hookBreakpoints (fun src (u : Unit) => (clearPath src, u)) bps ()).1))
          rw [hookBreakpoints_clearPath f hf bps st]
        | otherResponse c => rfl

/-- The outbound callback changes at most the `path` of the source it is
given: its result and its argument have the same `clearPath` image. -/
theorem outboundVisitor_clearPath (doc : NotebookDocument) (src : Source)
    (k : KernelState) :
    clearPath ((outboundVisitor doc src k).1) = clearPath src := by
  unfold outboundVisitor
  cases hsp : src.path with
  | none => rfl
  | some p =>
    dsimp only
    by_cases hpe : p = ""
    · rw [if_pos hpe]
    · rw [if_neg hpe]
      cases hd : (dumpCell k doc p).1 with
      | none => rfl
      | some cp => rfl

/-- C10 (confirmed). Outbound frame condition: the `onWillReceiveMessage` hook mutates
at most the `path` field of the visited sources — erasing the visited paths
from the rewritten message yields the original message with its visited
paths erased, so each visited source's `name` and `sourceReference`, and
every message field outside the visited source locations, are unchanged. -/
theorem outbound_frame_condition (k : KernelState) (doc : NotebookDocument)
    (m : ProtocolMessage) :
    mapSources (onWillReceiveMessage k doc m).1 clearPath = mapSources m clearPath :=
  visitSources_clearPath (outboundVisitor doc)
    (fun src st => outboundVisitor_clearPath doc src st) m k

end Nodebook
